import Mathlib

/-!
Shallow embedding of the redpill-gateway hot path, translated from the
TypeScript source: the sliding-window rate limiter, the admission
(virtual-key validator) middleware, the spend queue settlement worker, the
spend-log usage extraction middleware, the OpenAI-to-Anthropic dialect
transforms and the stored-config encryption helpers.  Decimal.js values are
modelled as rationals; machine integers that never overflow in the source
(token counts, ids, unix seconds) are modelled as naturals.
-/

set_option maxRecDepth 8192

namespace Gateway

/-! ## Rate limiter storage (src/middlewares/rateLimiter/storage.ts) -/

namespace RateLimit

/-- Result record returned by checkAndIncrementRateLimit. -/
structure RateLimitResult where
  allowed : Bool
  remaining : Int
  resetAt : Int
  limit : Int
deriving Repr, DecidableEq

/-- WINDOW_SIZE_SECONDS constant. -/
def WINDOW_SIZE_SECONDS : Nat := 60

/-- Redis counters consulted by one call for one account: the
previous-window counter and the current-window counter.  A missing key is
read as 0 in the source (Number(null) is coerced with a 0 fallback). -/
structure WindowCounters where
  prev : Nat
  curr : Nat
deriving Repr, DecidableEq

/-- checkAndIncrementRateLimit: GET the previous window counter, INCR the
current one, compute the sliding-window estimate
floor(prev * (1 - progress) + curr) with progress = (now mod 60) / 60, admit
iff the estimate is at most the limit, and DECR the current counter back on
rejection.  Returns the result record plus the counters after the
increment-and-possible-rollback. -/
def checkAndIncrementRateLimit (st : WindowCounters) (now : Nat) (limit : Nat) :
    RateLimitResult × WindowCounters :=
  let currCount : Nat := st.curr + 1
  let prevCount : Nat := st.prev
  let windowProgress : ℚ := ((now % WINDOW_SIZE_SECONDS : Nat) : ℚ) / (WINDOW_SIZE_SECONDS : ℚ)
  let estimatedCount : Int := Int.floor ((prevCount : ℚ) * (1 - windowProgress) + (currCount : ℚ))
  let allowed : Bool := decide (estimatedCount ≤ (limit : Int))
  let currentWindow : Nat := now / WINDOW_SIZE_SECONDS
  let resetAt : Int := (((currentWindow + 1) * WINDOW_SIZE_SECONDS : Nat) : Int)
  let finalCurr : Nat := if allowed then currCount else currCount - 1
  let remaining : Int := if allowed then max 0 ((limit : Int) - estimatedCount) else 0
  ({ allowed := allowed, remaining := remaining, resetAt := resetAt, limit := limit },
   { prev := st.prev, curr := finalCurr })

end RateLimit

/-! ## Admission / virtual-key validator (src/middlewares/virtualKeyValidator/index.ts) -/

namespace Admission

/-- Decimal.js arbitrary-precision store values, modelled as rationals. -/
abbrev Decimal := ℚ

/-- User row as parsed by UserSchema (db/postgres/user.ts).  Neither the zod
schema nor the users table migration carries a tier column, yet the
rate-limiter middleware reads a user_tier property; the producer of the
joined row (findVirtualKeyWithUser) is imported but not part of the
repository snapshot.  The field is therefore carried as an Option String:
none models the undefined read that a UserSchema-parsed object yields, some
models the tier of the spec §3 Account entity. -/
structure User where
  id : Nat
  budget_limit : Option Decimal
  budget_used : Decimal
  rate_limit_rpm : Option Nat
  user_tier : Option String
deriving DecidableEq

/-- Virtual key row joined with its owning user (VirtualKeyWithUser). -/
structure VirtualKeyWithUser where
  id : Nat
  budget_limit : Option Decimal
  budget_used : Decimal
  user : User
deriving DecidableEq

/-- Deployment snapshot returned by ModelService.getModelDeploymentForModel. -/
structure Deployment where
  id : Nat
  provider_name : String
  deployment_name : String
  api_key : String
  base_url : Option String
  input_cost_per_token : Option Decimal
  output_cost_per_token : Option Decimal
deriving DecidableEq

/-- Request context built by createVirtualKeyContext.  The phala request-hash
(SHA-256 of the raw body, consumed only by the signature endpoints) is outside
every claim and omitted here. -/
structure VirtualKeyContext where
  virtualKeyWithUser : Option VirtualKeyWithUser
  provider : String
  apiKey : String
  customHost : Option String
  deploymentName : String
  modelDeploymentId : Nat
  originalModel : String
  inputCostPerToken : Decimal
  outputCostPerToken : Decimal
deriving DecidableEq

/-- Outcome of a validator handler: either a context set on the request scope
or a VirtualKeyValidationError carrying an HTTP status code and message. -/
abbrev AdmissionResult := Except (Nat × String) VirtualKeyContext

instance exceptDecEq {ε α : Type _} [DecidableEq ε] [DecidableEq α] :
    DecidableEq (Except ε α) := fun x y =>
  match x, y with
  | .ok a, .ok b => decidable_of_iff (a = b) (by simp)
  | .error a, .error b => decidable_of_iff (a = b) (by simp)
  | .ok _, .error _ => isFalse fun hc => Except.noConfusion hc
  | .error _, .ok _ => isFalse fun hc => Except.noConfusion hc

/-- createVirtualKeyContext: resolve the deployment (404 when missing, quote
characters around the model name elided) and build the context snapshot;
missing pricing config fields default to 0 through the JS or-on-falsy. -/
def createVirtualKeyContext (deployment : Option Deployment) (modelName : String)
    (virtualKeyWithUser : Option VirtualKeyWithUser) : AdmissionResult :=
  match deployment with
  | none => .error (404, "Model " ++ modelName ++ " is not available")
  | some d =>
      .ok { virtualKeyWithUser := virtualKeyWithUser
            provider := d.provider_name
            apiKey := d.api_key
            customHost := d.base_url
            deploymentName := d.deployment_name
            modelDeploymentId := d.id
            originalModel := modelName
            inputCostPerToken := d.input_cost_per_token.getD 0
            outputCostPerToken := d.output_cost_per_token.getD 0 }

/-- Budget gate shared by the account and key checks:
limit !== undefined && used.gte(limit). -/
def overBudget (limit : Option Decimal) (used : Decimal) : Bool :=
  match limit with
  | some l => decide (used ≥ l)
  | none => false

/-- handleAuthenticatedUser: 401 on an unknown or inactive key, then the
account budget gate, then the key budget gate (each rejecting with HTTP status
401 in the source), then the context build. -/
def handleAuthenticatedUser (lookup : Option VirtualKeyWithUser)
    (deployment : Option Deployment) (modelName : String) : AdmissionResult :=
  match lookup with
  | none => .error (401, "Invalid API key")
  | some vk =>
      if overBudget vk.user.budget_limit vk.user.budget_used then
        .error (401, "Account quota exceeded")
      else if overBudget vk.budget_limit vk.budget_used then
        .error (401, "API key quota exceeded")
      else createVirtualKeyContext deployment modelName (some vk)

/-- Split a string at every occurrence of a separator character, with the JS
String.split semantics: the empty string yields one empty field, a trailing
separator yields a trailing empty field. -/
def splitChar (sep : Char) : List Char → List (List Char)
  | [] => [[]]
  | c :: rest =>
    let r := splitChar sep rest
    if c = sep then [] :: r
    else
      match r with
      | [] => [[c]]
      | h :: t => (c :: h) :: t

/-- JS String.split with a single-character separator. -/
def jsSplit (sep : Char) (s : String) : List String :=
  (splitChar sep s.data).map (fun cs => String.mk cs)

/-- JS String.trim: strip leading and trailing whitespace. -/
def jsTrim (s : String) : String :=
  String.mk (((s.data.dropWhile Char.isWhitespace).reverse.dropWhile
    Char.isWhitespace).reverse)

/-- isModelAllowed: membership of the requested model in the comma-separated
FREE_ALLOWED_MODELS environment value, entries trimmed. -/
def isModelAllowed (freeAllowedModels : String) (model : String) : Bool :=
  ((jsSplit ',' freeAllowedModels).map jsTrim).contains model

/-- handleAnonymousUser: reject a model outside the free allow-list with 403,
otherwise build a context with no key or account attached. -/
def handleAnonymousUser (freeAllowedModels : String) (deployment : Option Deployment)
    (modelName : String) : AdmissionResult :=
  if !isModelAllowed freeAllowedModels modelName then
    .error (403, "Add credits to access this model")
  else
    createVirtualKeyContext deployment modelName none

end Admission

/-! ## Spend queue settlement (src/services/spendQueue.ts) -/

namespace Spend

/-- Usage counters carried by a queued spend record. -/
structure SpendUsage where
  input_tokens : Nat
  output_tokens : Nat
deriving DecidableEq

/-- Pricing snapshot carried by a queued spend record. -/
structure SpendPricing where
  inputCostPerToken : ℚ
  outputCostPerToken : ℚ
deriving DecidableEq

/-- Decoded SpendData record.  The time field holds the formatted ClickHouse
timestamp when the stored string parses as a date, and none when constructing
the Date throws at formatting time (the Date machinery is external library
code, so the field is modelled by the outcome of that step). -/
structure SpendData where
  time : Option String
  endpoint : String
  duration : Nat
  userId : Nat
  virtualKeyId : Nat
  provider : String
  model : String
  modelDeploymentId : Nat
  usage : SpendUsage
  pricing : SpendPricing
deriving DecidableEq

/-- A popped queue entry after the decode attempt: none models a value that
decodeSpendData failed to decode (msgpack and base64 are external library
code, so an entry is modelled by its decode result). -/
abbrev QueueEntry := Option SpendData

/-- Row appended to the ClickHouse spend_logs table. -/
structure SpendLogRow where
  timestamp : String
  endpoint : String
  duration_ms : Nat
  user_id : Nat
  virtual_key_id : Nat
  provider : String
  model : String
  model_deployment_id : Nat
  input_tokens : Nat
  output_tokens : Nat
  input_cost_per_token : ℚ
  output_cost_per_token : ℚ
deriving DecidableEq

/-- cost = input_tokens * inputCostPerToken + output_tokens * outputCostPerToken,
in arbitrary-precision decimal arithmetic. -/
def cost (d : SpendData) : ℚ :=
  (d.usage.input_tokens : ℚ) * d.pricing.inputCostPerToken +
    (d.usage.output_tokens : ℚ) * d.pricing.outputCostPerToken

/-- Aggregation state of one drain batch: the per-account and per-key cost
maps (a missing map entry reads as 0) and the ClickHouse rows in insertion
order. -/
structure Aggregates where
  userSpends : Nat → ℚ
  keySpends : Nat → ℚ
  logs : List SpendLogRow

/-- Empty aggregation state at the start of a batch. -/
def initialAggregates : Aggregates := ⟨fun _ => 0, fun _ => 0, []⟩

/-- Pointwise map update used by the aggregation loop. -/
def bump (m : Nat → ℚ) (k : Nat) (c : ℚ) : Nat → ℚ :=
  fun i => if i = k then m i + c else m i

/-- ClickHouse row built for a record; it exists only when the stored time
parses, since an invalid date throws while the entry is being built. -/
def rowOf (d : SpendData) : Option SpendLogRow :=
  d.time.map fun ts =>
    { timestamp := ts, endpoint := d.endpoint, duration_ms := d.duration,
      user_id := d.userId, virtual_key_id := d.virtualKeyId,
      provider := d.provider, model := d.model,
      model_deployment_id := d.modelDeploymentId,
      input_tokens := d.usage.input_tokens,
      output_tokens := d.usage.output_tokens,
      input_cost_per_token := d.pricing.inputCostPerToken,
      output_cost_per_token := d.pricing.outputCostPerToken }

/-- Rows a single record contributes to the batch insert: none when its cost
is exactly zero (discarded early) or when the timestamp build throws. -/
def rowsOf (d : SpendData) : List SpendLogRow :=
  if cost d = 0 then [] else (rowOf d).toList

/-- Per-record step of the aggregation loop, in source order: compute the
cost, discard the record when the cost is exactly zero, add the cost to the
per-account and per-key maps, then build the analytical row.  The row build
is the point where an invalid stored time throws; the catch block then moves
on to the next record, so only the row is lost. -/
def processRecord (acc : Aggregates) (d : SpendData) : Aggregates :=
  if cost d = 0 then acc
  else
    let acc1 : Aggregates :=
      { acc with userSpends := bump acc.userSpends d.userId (cost d),
                 keySpends := bump acc.keySpends d.virtualKeyId (cost d) }
    match rowOf d with
    | none => acc1
    | some row => { acc1 with logs := acc1.logs ++ [row] }

/-- Decode pass over the popped batch: entries that fail to decode are
dropped with a logged error. -/
def decodeBatch (batch : List QueueEntry) : List SpendData :=
  batch.filterMap id

/-- processSpendQueue aggregation over one drained batch. -/
def processBatch (batch : List QueueEntry) : Aggregates :=
  (decodeBatch batch).foldl processRecord initialAggregates

/-- Total cost a batch charges to one account: the summed cost of its decoded
records owned by that account. -/
def userCostTotal (batch : List QueueEntry) (u : Nat) : ℚ :=
  (((decodeBatch batch).filter (fun d => decide (d.userId = u))).map cost).sum

/-- Total cost a batch charges to one key. -/
def keyCostTotal (batch : List QueueEntry) (k : Nat) : ℚ :=
  (((decodeBatch batch).filter (fun d => decide (d.virtualKeyId = k))).map cost).sum

/-- Account columns touched by settlement. -/
structure AccountState where
  budget_used : ℚ
  credits : ℚ
deriving DecidableEq

/-- Key columns touched by settlement. -/
structure KeyState where
  budget_used : ℚ
deriving DecidableEq

/-- Modelled from the spec: updateUserBudgetsBatch is imported by
spendQueue.ts from ../db/postgres/user but its definition is not in the
repository snapshot; per §4.8(1) each (account, cost) entry sets
budget_used += cost and credits -= cost * 2_000_000. -/
def updateUserBudgetsBatch (spends : Nat → ℚ) (accounts : Nat → AccountState) :
    Nat → AccountState :=
  fun uid =>
    { budget_used := (accounts uid).budget_used + spends uid,
      credits := (accounts uid).credits - spends uid * 2000000 }

/-- Modelled from the spec: updateVirtualKeyBudgetsBatch is imported by
spendQueue.ts from ../db/postgres/virtualKey but its definition is not in the
repository snapshot; per §4.8(2) each (key, cost) entry sets
budget_used += cost. -/
def updateVirtualKeyBudgetsBatch (spends : Nat → ℚ) (keys : Nat → KeyState) :
    Nat → KeyState :=
  fun kid => { budget_used := (keys kid).budget_used + spends kid }

/-- One settlement of a drained batch: aggregate, then apply both batched
budget writers. -/
def settleBatch (batch : List QueueEntry) (accounts : Nat → AccountState)
    (keys : Nat → KeyState) : (Nat → AccountState) × (Nat → KeyState) :=
  let agg := processBatch batch
  (updateUserBudgetsBatch agg.userSpends accounts,
   updateVirtualKeyBudgetsBatch agg.keySpends keys)

end Spend

/-! ## Spend-log usage extraction (src/middlewares/spendLog/index.ts)

The file carries two variants of the spendLogger middleware; both wrap the
SSE body in a TransformStream, split each chunk into lines, and feed every
line to extractUsageFromStreamChunk.  The first variant stops looking once a
usage has been found (first-wins); the second variant keeps overwriting the
remembered usage (last-wins).  On flush both emit a record iff a usage was
remembered. -/

namespace SpendLog

/-- Usage object read off a stream chunk (either dialect's fields). -/
structure Usage where
  input_tokens : Option Nat
  output_tokens : Option Nat
  prompt_tokens : Option Nat
  completion_tokens : Option Nat
deriving DecidableEq

/-- One line of a decoded SSE chunk, modelled by how
extractUsageFromStreamChunk classifies it: a line without the data prefix, a
data line holding the DONE sentinel, a data line whose JSON does not parse,
or a parsed data line with its optional usage field (JSON.parse itself is
external library code). -/
inductive StreamLine where
  | notData
  | doneMark
  | badJson
  | payload (usage : Option Usage)
deriving DecidableEq

/-- extractUsageFromStreamChunk: only a parsed data line can produce a usage;
the DONE sentinel, prefix-less lines and JSON errors yield null. -/
def extractUsageFromStreamChunk : StreamLine → Option Usage
  | .payload u => u
  | _ => none

/-- Inner line loop of the first spendLogger variant: take the first usage in
the chunk and break. -/
def firstUsageInLines : List StreamLine → Option Usage
  | [] => none
  | l :: ls =>
      match extractUsageFromStreamChunk l with
      | some u => some u
      | none => firstUsageInLines ls

/-- Per-chunk transform of the first spendLogger variant: lines are only
scanned while no usage has been remembered yet. -/
def spendLoggerV1Step (acc : Option Usage) (lines : List StreamLine) : Option Usage :=
  match acc with
  | some u => some u
  | none => firstUsageInLines lines

/-- Usage remembered by the first spendLogger variant at stream end. -/
def spendLoggerV1 (chunks : List (List StreamLine)) : Option Usage :=
  chunks.foldl spendLoggerV1Step none

/-- Per-chunk transform of the second spendLogger variant: every line is
scanned and a found usage overwrites the remembered one. -/
def spendLoggerV2Step (acc : Option Usage) (lines : List StreamLine) : Option Usage :=
  lines.foldl
    (fun a l =>
      match extractUsageFromStreamChunk l with
      | some u => some u
      | none => a)
    acc

/-- Usage remembered by the second spendLogger variant at stream end. -/
def spendLoggerV2 (chunks : List (List StreamLine)) : Option Usage :=
  chunks.foldl spendLoggerV2Step none

/-- All usages of a stream, in arrival order. -/
def usagesSeen (chunks : List (List StreamLine)) : List Usage :=
  chunks.flatMap (fun lines => lines.filterMap extractUsageFromStreamChunk)

/-- First-of-two choice on optional usages, used to state the fold results. -/
def orD (x fallback : Option Usage) : Option Usage :=
  match x with
  | some u => some u
  | none => fallback

end SpendLog

/-! ## Rate limiter middleware (the rateLimiter wrapper around storage) -/

namespace RateLimiterMiddleware

/-- ENTERPRISE_TIER sentinel. -/
def ENTERPRISE_TIER : String := "ENTERPRISE"

/-- What the middleware decides before any Redis round trip: pass the request
through untouched, or run checkAndIncrementRateLimit for a user id with a
resolved limit.  The DEFAULT_RATE_LIMIT_RPM environment value is passed in as
a parameter (spec §6 names it; the constants module of the snapshot does not
declare it). -/
inductive Decision where
  | skipped
  | checked (userId : Nat) (limit : Nat)
deriving DecidableEq

/-- rateLimiter middleware decision logic: skip when no authenticated key
context is attached, skip when the owning user's tier reads ENTERPRISE,
otherwise check with limit = user.rate_limit_rpm ?? DEFAULT_RATE_LIMIT_RPM. -/
def rateLimiterDecision (ctx : Option Admission.VirtualKeyContext)
    (defaultRpm : Nat) : Decision :=
  match ctx with
  | none => .skipped
  | some c =>
      match c.virtualKeyWithUser with
      | none => .skipped
      | some vk =>
          if vk.user.user_tier = some ENTERPRISE_TIER then .skipped
          else .checked vk.user.id (vk.user.rate_limit_rpm.getD defaultRpm)

end RateLimiterMiddleware

/-! ## OpenAI → Anthropic dialect bridge
(providers/openai-to-anthropic: the unary response transform and the
streaming transform). -/

namespace Bridge

/-- ANTHROPIC_STOP_REASON values used by the transforms. -/
inductive StopReason where
  | end_turn
  | max_tokens
  | tool_use
  | stop_sequence
deriving Repr, DecidableEq

/-- JS truthiness of an optional string: undefined, null and the empty
string are falsy. -/
def strTruthy : Option String → Bool
  | some s => !(s == "")
  | none => false

/-- JS truthiness of an optional number: undefined and 0 are falsy. -/
def natTruthy : Option Nat → Bool
  | some n => !(n == 0)
  | none => false

/-- JS a || b on strings. -/
def jsOrStr (a b : String) : String := if a == "" then b else a

/-- JS a || b on naturals. -/
def jsOrNat (a b : Nat) : Nat := if a == 0 then b else a

/-- The msg_ id synthesised from Date.now when a response carries no id (the
clock is external). -/
def msgIdFallback : String := "msg_0"

/-- mapFinishReason of the streaming transform
(string | null | undefined input). -/
def mapFinishReasonStream (finishReason : Option String) : StopReason :=
  match finishReason with
  | some "stop" => .end_turn
  | some "length" => .max_tokens
  | some "tool_calls" => .tool_use
  | some "function_call" => .tool_use
  | some "content_filter" => .end_turn
  | _ => .end_turn

/-- mapFinishReason of the unary response transform. -/
def mapFinishReason (finishReason : String) : StopReason :=
  match finishReason with
  | "stop" => .end_turn
  | "length" => .max_tokens
  | "tool_calls" => .tool_use
  | "function_call" => .tool_use
  | "content_filter" => .end_turn
  | _ => .end_turn

/-- delta.tool_calls entry of an OpenAI stream chunk (function.name and
function.arguments flattened in). -/
structure ToolCallDelta where
  index : Option Nat
  id : Option String
  name : Option String
  arguments : Option String
deriving DecidableEq

/-- delta object of a stream choice. -/
structure ChoiceDelta where
  content : Option String
  tool_calls : Option (List ToolCallDelta)
deriving DecidableEq

/-- One choice of a stream chunk. -/
structure StreamChoice where
  delta : Option ChoiceDelta
  finish_reason : Option String
deriving DecidableEq

/-- usage object of a stream chunk. -/
structure StreamUsage where
  prompt_tokens : Option Nat
  completion_tokens : Option Nat
deriving DecidableEq

/-- Parsed OpenAI stream chunk. -/
structure OpenAIStreamChunk where
  id : Option String
  model : Option String
  choices : List StreamChoice
  usage : Option StreamUsage
deriving DecidableEq

/-- A raw SSE chunk after trimming, classified the way the transform treats
it: the DONE sentinel (either data: [DONE] or bare [DONE]), an empty payload,
a payload whose JSON fails to parse (JSON.parse is external library code), or
a parsed chunk. -/
inductive RawChunk where
  | done
  | empty
  | malformed
  | payload (c : OpenAIStreamChunk)
deriving DecidableEq

/-- OpenAIToAnthropicStreamState after initStreamState has populated the
defaults.  toolCallsStarted is the set of numeric keys of the started-tool
record; JS enumerates array-index keys in ascending numeric order, so it is
kept as a sorted duplicate-free list. -/
structure StreamState where
  id : String
  model : String
  inputTokens : Nat
  outputTokens : Nat
  hasStarted : Bool
  contentBlockStarted : Bool
  currentContentIndex : Nat
  toolCallsStarted : List Nat
  finishReason : Option String
deriving Repr, DecidableEq

/-- State produced by initStreamState on the first call. -/
def initState : StreamState :=
  { id := "", model := "", inputTokens := 0, outputTokens := 0,
    hasStarted := false, contentBlockStarted := false,
    currentContentIndex := 0, toolCallsStarted := [], finishReason := none }

/-- Ordered duplicate-free insert of a numeric key. -/
def insertKey (l : List Nat) (k : Nat) : List Nat :=
  match l with
  | [] => [k]
  | x :: xs =>
      if k < x then k :: x :: xs
      else if k = x then x :: xs
      else x :: insertKey xs k

/-- Content-block opener payloads. -/
inductive BlockInit where
  | text
  | tool_use (id name : String)
deriving DecidableEq

/-- Content-block delta payloads. -/
inductive BlockDelta where
  | text_delta (text : String)
  | input_json_delta (partial_json : String)
deriving DecidableEq

/-- Anthropic SSE events emitted by the bridge, modelled structurally; the
source serialises each as an event:/data: line pair.  message_start carries
the resolved id, model and input-token stub (output_tokens is always 0
there). -/
inductive Event where
  | message_start (id model : String) (input_tokens : Nat)
  | content_block_start (index : Nat) (block : BlockInit)
  | content_block_delta (index : Nat) (delta : BlockDelta)
  | content_block_stop (index : Nat)
  | message_delta (stop_reason : StopReason) (input_tokens output_tokens : Nat)
  | message_stop
deriving DecidableEq

/-- Closing sequence of the DONE branch: content_block_stop for the open text
block, content_block_stop for every started tool block, message_delta with
the mapped stop reason and the final usage totals, then message_stop. -/
def handleDone (s : StreamState) : List Event :=
  (if s.contentBlockStarted then [Event.content_block_stop s.currentContentIndex] else [])
    ++ s.toolCallsStarted.map (fun i => Event.content_block_stop i)
    ++ [Event.message_delta (mapFinishReasonStream s.finishReason) s.inputTokens s.outputTokens,
        Event.message_stop]

/-- message_start payload: id, model and input-token stub resolved through
the JS or-chains of generateMessageStartEvent. -/
def messageStartEvent (s : StreamState) (c : OpenAIStreamChunk)
    (fallbackId : String) : Event :=
  .message_start
    (jsOrStr (c.id.getD "") (jsOrStr s.id (jsOrStr fallbackId msgIdFallback)))
    (jsOrStr (c.model.getD "") (jsOrStr s.model "unknown"))
    (jsOrNat ((c.usage.bind (·.prompt_tokens)).getD 0) (jsOrNat s.inputTokens 0))

/-- Inner loop body over delta.tool_calls: at
toolIndex = currentContentIndex + 1 + (toolCall.index || 0), a new id+name
pair first closes the open text block (when this tool index is not already
started), opens the tool_use block and records the index; an arguments
fragment then emits an input_json_delta at the same index. -/
def processToolCall (p : List Event × StreamState) (tc : ToolCallDelta) :
    List Event × StreamState :=
  let st := p.2
  let toolIndex := st.currentContentIndex + 1 + tc.index.getD 0
  let p1 : List Event × StreamState :=
    if strTruthy tc.id && strTruthy tc.name then
      let p0 : List Event × StreamState :=
        if st.contentBlockStarted && !(st.toolCallsStarted.contains toolIndex) then
          (p.1 ++ [Event.content_block_stop st.currentContentIndex],
           { st with contentBlockStarted := false })
        else (p.1, st)
      (p0.1 ++ [Event.content_block_start toolIndex
          (.tool_use (tc.id.getD "") (tc.name.getD ""))],
       { p0.2 with toolCallsStarted := insertKey p0.2.toolCallsStarted toolIndex })
    else (p.1, st)
  if strTruthy tc.arguments then
    (p1.1 ++ [Event.content_block_delta toolIndex
        (.input_json_delta (tc.arguments.getD ""))], p1.2)
  else p1

/-- OpenAIToAnthropicMessagesStreamTransform on one chunk: the DONE branch
emits the closing sequence, a malformed or empty chunk is skipped, and a
parsed chunk updates the state (id, model, usage), emits message_start on the
first chunk, then handles the first choice's text delta, tool-call deltas and
finish_reason.  Returns the emitted events and the new state. -/
def transformChunk (chunk : RawChunk) (fallbackId : String) (st0 : StreamState) :
    List Event × StreamState :=
  match chunk with
  | .done => (handleDone st0, st0)
  | .empty => ([], st0)
  | .malformed => ([], st0)
  | .payload c =>
      let st1 := if strTruthy c.id then { st0 with id := c.id.getD "" } else st0
      let st2 := if strTruthy c.model then { st1 with model := c.model.getD "" } else st1
      let st3 :=
        match c.usage with
        | none => st2
        | some u =>
            let sa :=
              if natTruthy u.prompt_tokens then
                { st2 with inputTokens := u.prompt_tokens.getD 0 }
              else st2
            if natTruthy u.completion_tokens then
              { sa with outputTokens := u.completion_tokens.getD 0 }
            else sa
      let startPair : List Event × StreamState :=
        if !st3.hasStarted then
          ([messageStartEvent st3 c fallbackId], { st3 with hasStarted := true })
        else ([], st3)
      match c.choices.head? with
      | none => startPair
      | some choice =>
          let contentPair : List Event × StreamState :=
            match choice.delta with
            | none => startPair
            | some delta =>
                if strTruthy delta.content then
                  let openPair : List Event × StreamState :=
                    if !startPair.2.contentBlockStarted then
                      (startPair.1 ++ [Event.content_block_start
                          startPair.2.currentContentIndex .text],
                       { startPair.2 with contentBlockStarted := true })
                    else startPair
                  (openPair.1 ++ [Event.content_block_delta
                      openPair.2.currentContentIndex
                      (.text_delta (delta.content.getD ""))], openPair.2)
                else startPair
          let toolPair : List Event × StreamState :=
            match choice.delta.bind (fun d => d.tool_calls) with
            | none => contentPair
            | some tcs => tcs.foldl processToolCall contentPair
          if strTruthy choice.finish_reason then
            (toolPair.1, { toolPair.2 with finishReason := choice.finish_reason })
          else toolPair

/-- Stream runner: fold the per-chunk transform over the upstream chunks from
the initialised state, concatenating emitted events. -/
def runChunks (chunks : List RawChunk) (fallbackId : String) :
    List Event × StreamState :=
  chunks.foldl
    (fun p ch =>
      let r := transformChunk ch fallbackId p.2
      (p.1 ++ r.1, r.2))
    ([], initState)

/-- Modelled from the spec: the SSE driver that feeds upstream lines into the
chunk transform lives outside the repository snapshot; per §4.4 failure
semantics it treats EOF without a DONE sentinel like the sentinel itself, so
at EOF it invokes the transform once more with the terminator. -/
def runStreamAtEof (chunks : List RawChunk) (fallbackId : String) : List Event :=
  let p := runChunks chunks fallbackId
  p.1 ++ (transformChunk .done fallbackId p.2).1

/-- tool_calls entry of a unary OpenAI chat response. -/
structure OpenAIToolCall where
  id : String
  type : String
  name : String
  arguments : String
deriving DecidableEq

/-- message object of a unary response choice. -/
structure OpenAIChatMessage where
  role : String
  content : Option String
  tool_calls : Option (List OpenAIToolCall)
deriving DecidableEq

/-- One choice of a unary OpenAI chat response. -/
structure OpenAIChatChoice where
  message : OpenAIChatMessage
  finish_reason : String
deriving DecidableEq

/-- usage object of a unary OpenAI chat response. -/
structure OpenAIChatUsage where
  prompt_tokens : Nat
  completion_tokens : Nat
  cache_read_input_tokens : Option Nat
  cache_creation_input_tokens : Option Nat
deriving DecidableEq

/-- Unary OpenAI chat response body. -/
structure OpenAIChatResponse where
  id : String
  model : String
  choices : List OpenAIChatChoice
  usage : Option OpenAIChatUsage
deriving DecidableEq

/-- Anthropic content blocks produced by the response transform; the
tool_use input is modelled by the raw arguments string handed to
safeParseJSON (JSON.parse is external library code). -/
inductive ContentBlock where
  | text (text : String)
  | tool_use (id name arguments : String)
deriving DecidableEq

/-- usage object of the produced Anthropic response. -/
structure Usage where
  input_tokens : Nat
  output_tokens : Nat
  cache_read_input_tokens : Option Nat
  cache_creation_input_tokens : Option Nat
deriving DecidableEq

/-- Anthropic Messages response produced on the 2xx path (type and role are
the constants message / assistant and stop_sequence is null). -/
structure MessagesResponse where
  id : String
  content : List ContentBlock
  model : String
  stop_reason : StopReason
  usage : Usage
deriving DecidableEq

/-- Anthropic-shaped error produced on the error path. -/
structure ErrorResponse where
  message : String
  type : String
  param : Option String
  code : Option String
  provider : String
deriving DecidableEq

/-- Input of the response transform: a success-shaped body or an error-shaped
body (the latter carrying the error object fields). -/
inductive ResponseBody where
  | success (r : OpenAIChatResponse)
  | failure (message : String) (type : String) (param : Option String)
      (code : Option String)
deriving DecidableEq

/-- OpenAIToAnthropicMessagesResponseTransform: non-2xx statuses surface the
wrapped error (defaulting type to api_error) or an unknown-error shape;
2xx bodies without a non-empty choices array yield the invalid-format error;
otherwise choices[0].message becomes the content list (text block when
content is truthy, tool_use blocks from tool_calls, a single empty text block
when both are missing), usage maps prompt and completion tokens with optional
cache fields, and finish_reason maps through the fixed table. -/
def OpenAIToAnthropicMessagesResponseTransform (response : ResponseBody)
    (responseStatus : Nat) (provider : String) :
    Except ErrorResponse MessagesResponse :=
  if responseStatus < 200 ∨ responseStatus ≥ 300 then
    match response with
    | .failure msg ty param code =>
        .error ⟨msg, jsOrStr ty "api_error", param, code, provider⟩
    | .success _ =>
        .error ⟨"Unknown error occurred", "api_error", none, none, provider⟩
  else
    match response with
    | .failure _ _ _ _ =>
        .error ⟨"Invalid response format: missing choices", "api_error",
          none, none, provider⟩
    | .success r =>
        match r.choices with
        | [] =>
            .error ⟨"Invalid response format: missing choices", "api_error",
              none, none, provider⟩
        | choice :: _ =>
            let msg := choice.message
            let content0 : List ContentBlock :=
              if strTruthy msg.content then [.text (msg.content.getD "")] else []
            let content1 : List ContentBlock :=
              match msg.tool_calls with
              | some tcs =>
                  if tcs.length > 0 then
                    content0 ++
                      tcs.map (fun tc => ContentBlock.tool_use tc.id tc.name tc.arguments)
                  else content0
              | none => content0
            let content : List ContentBlock :=
              if content1.isEmpty then [ContentBlock.text ""] else content1
            let usage : Usage :=
              { input_tokens := (r.usage.map (fun u => u.prompt_tokens)).getD 0
                output_tokens := (r.usage.map (fun u => u.completion_tokens)).getD 0
                cache_read_input_tokens := r.usage.bind (fun u => u.cache_read_input_tokens)
                cache_creation_input_tokens :=
                  r.usage.bind (fun u => u.cache_creation_input_tokens) }
            .ok { id := jsOrStr r.id msgIdFallback
                  content := content
                  model := r.model
                  stop_reason := mapFinishReason choice.finish_reason
                  usage := usage }

end Bridge

/-! ## Stored-config encryption (encryptConfig / decryptConfig) -/

namespace ConfigCrypto

/-- Byte strings; a plaintext string is represented by its UTF-8 bytes. -/
abbrev Bytes := List (Fin 256)

/-- IV_LENGTH = 12 (96-bit GCM IV). -/
def IV_LENGTH : Nat := 12

/-- TAG_LENGTH = 16 (128-bit GCM tag). -/
def TAG_LENGTH : Nat := 16

/-- AES-256-GCM as the node crypto module exposes it, modelled as an abstract
authenticated cipher (the primitive is external library code): encrypt and
decrypt over key, IV and data, the authentication tag produced at encryption
time and its verification at decryption time, together with the contracts the
library guarantees: GCM ciphertext length equals plaintext length, the tag is
16 bytes, decryption inverts encryption, and a genuine tag verifies. -/
structure AesGcm where
  enc : Bytes → Bytes → Bytes → Bytes
  dec : Bytes → Bytes → Bytes → Bytes
  authTag : Bytes → Bytes → Bytes → Bytes
  checkTag : Bytes → Bytes → Bytes → Bytes → Bool
  enc_length : ∀ k iv m, (enc k iv m).length = m.length
  tag_length : ∀ k iv m, (authTag k iv m).length = TAG_LENGTH
  dec_enc : ∀ k iv m, dec k iv (enc k iv m) = m
  check_genuine : ∀ k iv m, checkTag k iv (enc k iv m) (authTag k iv m) = true

/-- Buffer base64 conversion as node exposes it, modelled as an abstract
codec (external library code) with its round-trip contract and the fact that
a nonempty byte string encodes to a nonempty text. -/
structure Base64Codec where
  encode : Bytes → String
  decode : String → Bytes
  decode_encode : ∀ bs, decode (encode bs) = bs
  encode_ne : ∀ bs, bs ≠ [] → encode bs ≠ ""

/-- encryptConfig: derive the key (SHA-256 of the configured secret, external
and shared with decryptConfig, so a parameter here), draw a random IV
(external, so a parameter), encrypt, and emit base64(IV || TAG ||
CIPHERTEXT). -/
def encryptConfig (C : AesGcm) (B : Base64Codec) (key iv plaintext : Bytes) : String :=
  B.encode (iv ++ C.authTag key iv plaintext ++ C.enc key iv plaintext)

/-- decryptConfig: reject an empty input, base64-decode, reject data shorter
than IV + TAG + one ciphertext byte, slice IV, tag and ciphertext at offsets
12 and 28, verify the tag (decipher.final throws on mismatch) and decrypt. -/
def decryptConfig (C : AesGcm) (B : Base64Codec) (key : Bytes)
    (encryptedData : String) : Except String Bytes :=
  if encryptedData = "" then
    .error "Invalid encrypted data: must be a non-empty string"
  else
    let data := B.decode encryptedData
    if data.length < IV_LENGTH + TAG_LENGTH + 1 then
      .error "Invalid encrypted data: too short"
    else
      let iv := data.take IV_LENGTH
      let tag := (data.drop IV_LENGTH).take TAG_LENGTH
      let encrypted := data.drop (IV_LENGTH + TAG_LENGTH)
      if C.checkTag key iv encrypted tag then .ok (C.dec key iv encrypted)
      else .error "Unsupported state or unable to authenticate data"

/-- Concrete cipher instance used only to evaluate the embedding at concrete
inputs: identity encryption with a constant tag; it satisfies exactly the
contracts stated in AesGcm. -/
def idGcm : AesGcm where
  enc := fun _ _ m => m
  dec := fun _ _ c => c
  authTag := fun _ _ _ => List.replicate TAG_LENGTH 0
  checkTag := fun _ _ _ t => t == List.replicate TAG_LENGTH 0
  enc_length := fun _ _ _ => rfl
  tag_length := fun _ _ _ => List.length_replicate _ _
  dec_enc := fun _ _ _ => rfl
  check_genuine := fun _ _ _ => by simp

/-- Concrete codec instance used only to evaluate the embedding at concrete
inputs: one character per byte; it satisfies exactly the contracts stated in
Base64Codec. -/
def byteCodec : Base64Codec where
  encode := fun bs => String.mk (bs.map (fun b => Char.ofNat b.val))
  decode := fun s => s.data.map (fun c => (⟨c.toNat % 256, Nat.mod_lt _ (by norm_num)⟩ : Fin 256))
  decode_encode := by
    intro bs
    simp only [String.mk]
    rw [List.map_map]
    have hpoint : ∀ b : Fin 256,
        ((⟨(Char.ofNat b.val).toNat % 256, Nat.mod_lt _ (by norm_num)⟩ : Fin 256)) = b := by
      decide
    calc (bs.map (fun b => (⟨(Char.ofNat b.val).toNat % 256,
            Nat.mod_lt _ (by norm_num)⟩ : Fin 256)))
        = bs.map id := List.map_congr_left (fun b _ => hpoint b)
      _ = bs := List.map_id bs
  encode_ne := by
    intro bs hbs hc
    apply hbs
    have : bs.map (fun b => Char.ofNat b.val) = [] := by
      have := congrArg String.data hc
      simpa using this
    simpa using this

end ConfigCrypto

end Gateway

namespace Gateway

open RateLimit

/-- C5: checkAndIncrementRateLimit with w = floor(now/60) reads the
previous-window count prev, increments the current-window count to
curr = prev state + 1, and computes
estimated = floor(prev * (1 - (now mod 60)/60) + curr); the request is allowed
iff estimated is at most the limit; when not allowed the current counter is
decremented back and remaining 0 is returned; when allowed the counter keeps
the increment and remaining = max 0 (limit - estimated); in both cases
resetAt = (w + 1) * 60. -/
theorem checkAndIncrementRateLimit_spec (st : WindowCounters) (now limit : Nat) :
    ((checkAndIncrementRateLimit st now limit).1.allowed = true ↔
      Int.floor ((st.prev : ℚ) * (1 - ((now % 60 : Nat) : ℚ) / 60) + ((st.curr + 1 : Nat) : ℚ))
        ≤ (limit : Int)) ∧
    ((checkAndIncrementRateLimit st now limit).1.allowed = false →
      (checkAndIncrementRateLimit st now limit).2.curr = st.curr ∧
      (checkAndIncrementRateLimit st now limit).1.remaining = 0) ∧
    ((checkAndIncrementRateLimit st now limit).1.allowed = true →
      (checkAndIncrementRateLimit st now limit).2.curr = st.curr + 1 ∧
      (checkAndIncrementRateLimit st now limit).1.remaining =
        max 0 ((limit : Int) -
          Int.floor ((st.prev : ℚ) * (1 - ((now % 60 : Nat) : ℚ) / 60) + ((st.curr + 1 : Nat) : ℚ)))) ∧
    (checkAndIncrementRateLimit st now limit).1.resetAt = (((now / 60 + 1) * 60 : Nat) : Int) := by
  have hA : (checkAndIncrementRateLimit st now limit).1.allowed =
      decide (Int.floor ((st.prev : ℚ) * (1 - ((now % 60 : Nat) : ℚ) / 60) +
        ((st.curr + 1 : Nat) : ℚ)) ≤ (limit : Int)) := rfl
  by_cases h :
      Int.floor ((st.prev : ℚ) * (1 - ((now % 60 : Nat) : ℚ) / 60) + ((st.curr + 1 : Nat) : ℚ))
        ≤ (limit : Int)
  · have hT : (checkAndIncrementRateLimit st now limit).1.allowed = true := by
      rw [hA]; exact decide_eq_true h
    refine ⟨⟨fun _ => h, fun _ => hT⟩, fun hf => absurd hT (by rw [hf]; exact Bool.false_ne_true),
      fun _ => ⟨?_, ?_⟩, rfl⟩
    · show (if (checkAndIncrementRateLimit st now limit).1.allowed = true then st.curr + 1
          else st.curr + 1 - 1) = st.curr + 1
      rw [if_pos hT]
    · show (if (checkAndIncrementRateLimit st now limit).1.allowed = true then
          max 0 ((limit : Int) - _) else 0) = _
      rw [if_pos hT]; rfl
  · have hF : (checkAndIncrementRateLimit st now limit).1.allowed = false := by
      rw [hA]; exact decide_eq_false h
    refine ⟨⟨fun ht => absurd ht (by rw [hF]; exact Bool.false_ne_true), fun hle => absurd hle h⟩,
      fun _ => ⟨?_, ?_⟩,
      fun ht => absurd ht (by rw [hF]; exact Bool.false_ne_true), rfl⟩
    · show (if (checkAndIncrementRateLimit st now limit).1.allowed = true then st.curr + 1
          else st.curr + 1 - 1) = st.curr
      rw [if_neg (by rw [hF]; exact Bool.false_ne_true)]
      exact Nat.succ_sub_one _
    · show (if (checkAndIncrementRateLimit st now limit).1.allowed = true then
          max 0 ((limit : Int) - _) else 0) = 0
      rw [if_neg (by rw [hF]; exact Bool.false_ne_true)]

/-- Witness for C5 at a concrete input: previous window 30, current 4, a call
at now = 90 (mid-window) against limit 10 is rejected, the counter rolls back
to 4 and remaining is 0. -/
theorem checkAndIncrementRateLimit_spec_witness :
    (checkAndIncrementRateLimit ⟨30, 4⟩ 90 10).2.curr = 4 ∧
    (checkAndIncrementRateLimit ⟨30, 4⟩ 90 10).1.remaining = 0 :=
  (checkAndIncrementRateLimit_spec ⟨30, 4⟩ 90 10).2.1 (by
    have hiff := (checkAndIncrementRateLimit_spec ⟨30, 4⟩ 90 10).1
    have hne : ¬ ((checkAndIncrementRateLimit ⟨30, 4⟩ 90 10).1.allowed = true) := by
      rw [hiff]; norm_num
    simpa using hne)

open Admission

/-- C2 counterexample: an authenticated key whose account sits at its budget
limit is rejected with HTTP status 401, not the 402 the claim states. -/
theorem handleAuthenticatedUser_status_counterexample :
    handleAuthenticatedUser (some ⟨7, none, 0, ⟨1, some 100, 100, none, none⟩⟩)
        (some ⟨5, "openai", "gpt-4", "sk", none, none, none⟩) "gpt-4"
      = .error (401, "Account quota exceeded") ∧
    handleAuthenticatedUser (some ⟨7, none, 0, ⟨1, some 100, 100, none, none⟩⟩)
        (some ⟨5, "openai", "gpt-4", "sk", none, none, none⟩) "gpt-4"
      ≠ .error (402, "Account quota exceeded") := by
  constructor <;> decide

/-- C2 amended: for an authenticated request whose key resolves, if the
account budget_limit is set and budget_used has reached it, admission fails
with HTTP 401 (not 402) and message Account quota exceeded; otherwise, if the
key budget_limit is set and the key budget_used has reached it, admission
fails with HTTP 401 and message API key quota exceeded. -/
theorem handleAuthenticatedUser_quota (vk : VirtualKeyWithUser)
    (dep : Option Deployment) (m : String) :
    (∀ l, vk.user.budget_limit = some l → vk.user.budget_used ≥ l →
      handleAuthenticatedUser (some vk) dep m = .error (401, "Account quota exceeded")) ∧
    ((¬ ∃ l, vk.user.budget_limit = some l ∧ vk.user.budget_used ≥ l) →
      ∀ l, vk.budget_limit = some l → vk.budget_used ≥ l →
      handleAuthenticatedUser (some vk) dep m = .error (401, "API key quota exceeded")) := by
  constructor
  · intro l hl hge
    simp [handleAuthenticatedUser, overBudget, hl, hge]
  · intro hno l hl hge
    have hacc : overBudget vk.user.budget_limit vk.user.budget_used = false := by
      unfold overBudget
      cases hbl : vk.user.budget_limit with
      | none => rfl
      | some l0 =>
          have : ¬ vk.user.budget_used ≥ l0 := fun hc => hno ⟨l0, hbl, hc⟩
          simp [this]
    have hkey : overBudget vk.budget_limit vk.budget_used = true := by
      rw [hl]; simp [overBudget, hge]
    simp [handleAuthenticatedUser, hacc, hkey]

/-- Witness for C2 amended: a key with limit 10 fully consumed under an
account that still has headroom is rejected 401 API key quota exceeded. -/
theorem handleAuthenticatedUser_quota_witness :
    handleAuthenticatedUser (some ⟨7, some 10, 10, ⟨1, some 100, 50, none, none⟩⟩)
        (some ⟨5, "openai", "gpt-4", "sk", none, none, none⟩) "gpt-4"
      = .error (401, "API key quota exceeded") :=
  (handleAuthenticatedUser_quota ⟨7, some 10, 10, ⟨1, some 100, 50, none, none⟩⟩
      (some ⟨5, "openai", "gpt-4", "sk", none, none, none⟩) "gpt-4").2
    (by rintro ⟨l, hl, hge⟩; rw [Option.some_inj] at hl; subst hl; norm_num at hge)
    10 rfl le_rfl

/-- C7 counterexample: an anonymous request for a model outside the free
allow-list is rejected 403 with the message Add credits to access this model,
not the message This model requires an API key stated by the claim. -/
theorem handleAnonymousUser_message_counterexample :
    handleAnonymousUser "qwen/qwen-2.5-7b-instruct" none "gpt-4"
      = .error (403, "Add credits to access this model") ∧
    handleAnonymousUser "qwen/qwen-2.5-7b-instruct" none "gpt-4"
      ≠ .error (403, "This model requires an API key") := by
  constructor <;> decide

/-- C7 amended: with no Bearer header on a non-public path, a model outside
the comma-separated free allow-list is rejected with HTTP 403 and the message
Add credits to access this model; a model in the list is admitted with no
account attached and proceeds to deployment resolution. -/
theorem handleAnonymousUser_spec (free m : String) (dep : Option Deployment) :
    (m ∉ ((jsSplit ',' free).map jsTrim) →
      handleAnonymousUser free dep m = .error (403, "Add credits to access this model")) ∧
    (m ∈ ((jsSplit ',' free).map jsTrim) →
      handleAnonymousUser free dep m = createVirtualKeyContext dep m none ∧
      ∀ d, dep = some d →
        ∃ ctx, handleAnonymousUser free dep m = .ok ctx ∧ ctx.virtualKeyWithUser = none) := by
  constructor
  · intro hnotin
    have hb : isModelAllowed free m = false := by
      unfold isModelAllowed
      exact Bool.eq_false_iff.mpr fun hc => hnotin (List.elem_iff.mp hc)
    simp [handleAnonymousUser, hb]
  · intro hin
    have hallow : isModelAllowed free m = true := List.elem_iff.mpr hin
    refine ⟨by simp [handleAnonymousUser, hallow], ?_⟩
    rintro d rfl
    exact ⟨⟨none, d.provider_name, d.api_key, d.base_url, d.deployment_name, d.id, m,
        d.input_cost_per_token.getD 0, d.output_cost_per_token.getD 0⟩,
      by simp [handleAnonymousUser, hallow, createVirtualKeyContext], rfl⟩

/-- Witness for C7 amended: model b, trimmed out of the list a, b, is
admitted with no account attached. -/
theorem handleAnonymousUser_spec_witness :
    ∃ ctx,
      handleAnonymousUser "a, b" (some ⟨5, "openai", "gpt-4-dep", "sk", none, none, none⟩) "b"
        = .ok ctx ∧ ctx.virtualKeyWithUser = none :=
  (handleAnonymousUser_spec "a, b" "b"
      (some ⟨5, "openai", "gpt-4-dep", "sk", none, none, none⟩)).2
    (by decide) |>.2 _ rfl

open Spend

/-- One aggregation step adds the record cost to the entry of its owning
account and leaves every other account entry unchanged. -/
theorem processRecord_userSpends (acc : Aggregates) (d : SpendData) (u : Nat) :
    (processRecord acc d).userSpends u =
      acc.userSpends u + (if d.userId = u then cost d else 0) := by
  by_cases hz : cost d = 0
  · by_cases hu : d.userId = u <;> simp [processRecord, hz, hu]
  · by_cases hu : d.userId = u
    · cases hrow : rowOf d <;> simp [processRecord, hz, hrow, bump, hu]
    · have hu2 : ¬ (u = d.userId) := fun h => hu h.symm
      cases hrow : rowOf d <;> simp [processRecord, hz, hrow, bump, hu, hu2]

/-- One aggregation step adds the record cost to the entry of its key. -/
theorem processRecord_keySpends (acc : Aggregates) (d : SpendData) (k : Nat) :
    (processRecord acc d).keySpends k =
      acc.keySpends k + (if d.virtualKeyId = k then cost d else 0) := by
  by_cases hz : cost d = 0
  · by_cases hk : d.virtualKeyId = k <;> simp [processRecord, hz, hk]
  · by_cases hk : d.virtualKeyId = k
    · cases hrow : rowOf d <;> simp [processRecord, hz, hrow, bump, hk]
    · have hk2 : ¬ (k = d.virtualKeyId) := fun h => hk h.symm
      cases hrow : rowOf d <;> simp [processRecord, hz, hrow, bump, hk, hk2]

/-- One aggregation step appends exactly the rows of the processed record. -/
theorem processRecord_logs (acc : Aggregates) (d : SpendData) :
    (processRecord acc d).logs = acc.logs ++ rowsOf d := by
  by_cases hz : cost d = 0
  · simp [processRecord, rowsOf, hz]
  · cases hrow : rowOf d <;> simp [processRecord, rowsOf, hz, hrow]

/-- Account totals of the aggregation loop over a decoded batch. -/
theorem foldl_processRecord_userSpends (ds : List SpendData) (acc : Aggregates) (u : Nat) :
    (ds.foldl processRecord acc).userSpends u =
      acc.userSpends u + ((ds.filter (fun d => decide (d.userId = u))).map cost).sum := by
  induction ds generalizing acc with
  | nil => simp
  | cons d ds ih =>
      simp only [List.foldl_cons, List.filter_cons]
      rw [ih, processRecord_userSpends]
      by_cases hu : d.userId = u
      · simp [hu, List.sum_cons]
        ring
      · simp [hu]

/-- Key totals of the aggregation loop over a decoded batch. -/
theorem foldl_processRecord_keySpends (ds : List SpendData) (acc : Aggregates) (k : Nat) :
    (ds.foldl processRecord acc).keySpends k =
      acc.keySpends k + ((ds.filter (fun d => decide (d.virtualKeyId = k))).map cost).sum := by
  induction ds generalizing acc with
  | nil => simp
  | cons d ds ih =>
      simp only [List.foldl_cons, List.filter_cons]
      rw [ih, processRecord_keySpends]
      by_cases hk : d.virtualKeyId = k
      · simp [hk, List.sum_cons]
        ring
      · simp [hk]

/-- Analytical rows of the aggregation loop over a decoded batch. -/
theorem foldl_processRecord_logs (ds : List SpendData) (acc : Aggregates) :
    (ds.foldl processRecord acc).logs = acc.logs ++ ds.flatMap rowsOf := by
  induction ds generalizing acc with
  | nil => simp
  | cons d ds ih =>
      simp only [List.foldl_cons, List.flatMap_cons]
      rw [ih, processRecord_logs, List.append_assoc]

/-- A record whose stored time throws at row-build time contributes no row. -/
theorem rowsOf_eq_nil_of_time_none (d : SpendData) (ht : d.time = none) :
    rowsOf d = [] := by
  by_cases hz : cost d = 0 <;> simp [rowsOf, rowOf, ht, hz]

/-- C10: within one drain batch, a popped entry that fails to decode leaves
the aggregates exactly as if it had not been popped, and a decoded record
whose per-record processing throws while building its analytical row loses
only that row; in both cases every other decodable record in the batch is
still aggregated into the budget maps and the analytical rows. -/
theorem processBatch_skips_failures (xs ys : List QueueEntry) (d : SpendData) :
    ((processBatch (xs ++ none :: ys)).logs = (processBatch (xs ++ ys)).logs ∧
      (∀ u, (processBatch (xs ++ none :: ys)).userSpends u =
        (processBatch (xs ++ ys)).userSpends u) ∧
      (∀ k, (processBatch (xs ++ none :: ys)).keySpends k =
        (processBatch (xs ++ ys)).keySpends k)) ∧
    (d.time = none →
      (processBatch (xs ++ some d :: ys)).logs = (processBatch (xs ++ ys)).logs) ∧
    (∀ u, (processBatch (xs ++ some d :: ys)).userSpends u =
      (processBatch (xs ++ ys)).userSpends u + (if d.userId = u then cost d else 0)) ∧
    (∀ k, (processBatch (xs ++ some d :: ys)).keySpends k =
      (processBatch (xs ++ ys)).keySpends k + (if d.virtualKeyId = k then cost d else 0)) := by
  have hdec0 : decodeBatch (xs ++ none :: ys) = decodeBatch xs ++ decodeBatch ys := by
    simp [decodeBatch, List.filterMap_append]
  have hdec1 : decodeBatch (xs ++ some d :: ys) = decodeBatch xs ++ d :: decodeBatch ys := by
    simp [decodeBatch, List.filterMap_append]
  have hdec2 : decodeBatch (xs ++ ys) = decodeBatch xs ++ decodeBatch ys := by
    simp [decodeBatch, List.filterMap_append]
  refine ⟨⟨?_, fun u => ?_, fun k => ?_⟩, fun ht => ?_, fun u => ?_, fun k => ?_⟩
  · rw [processBatch, processBatch, hdec0, hdec2]
  · rw [processBatch, processBatch, hdec0, hdec2]
  · rw [processBatch, processBatch, hdec0, hdec2]
  · rw [processBatch, processBatch, hdec1, hdec2,
      foldl_processRecord_logs, foldl_processRecord_logs]
    simp [rowsOf_eq_nil_of_time_none d ht]
  · rw [processBatch, processBatch, hdec1, hdec2,
      foldl_processRecord_userSpends, foldl_processRecord_userSpends]
    by_cases hu : d.userId = u <;> simp [List.filter_append, hu] <;> ring
  · rw [processBatch, processBatch, hdec1, hdec2,
      foldl_processRecord_keySpends, foldl_processRecord_keySpends]
    by_cases hk : d.virtualKeyId = k <;> simp [List.filter_append, hk] <;> ring

/-- Witness for C10 at a concrete input: a record with an unparseable time
and nonzero cost contributes no analytical row. -/
theorem processBatch_skips_failures_witness :
    (processBatch [some ⟨none, "/v1/chat/completions", 5, 3, 9, "openai", "m", 1,
        ⟨2, 0⟩, ⟨1, 0⟩⟩]).logs = (processBatch ([] : List QueueEntry)).logs :=
  (processBatch_skips_failures [] []
    ⟨none, "/v1/chat/completions", 5, 3, 9, "openai", "m", 1, ⟨2, 0⟩, ⟨1, 0⟩⟩).2.1 rfl

/-- C1: over one settled batch, every account's budget_used grows by the
summed cost (input_tokens * input_cost_per_token +
output_tokens * output_cost_per_token) of the decoded records it owns, its
credits shrink by that sum times 2 000 000, and every key's budget_used grows
by the summed cost of the decoded records charged to it — so each decoded
record contributes its cost to both its account and its key.  The SpendData
record carries no spend_mode, so no record of this code is produced under a
subscription spend mode and the claim's exception is vacuous. -/
theorem settleBatch_spec (batch : List QueueEntry) (accounts : Nat → AccountState)
    (keys : Nat → KeyState) :
    (∀ u, ((settleBatch batch accounts keys).1 u).budget_used
        = (accounts u).budget_used + userCostTotal batch u) ∧
    (∀ u, ((settleBatch batch accounts keys).1 u).credits
        = (accounts u).credits - userCostTotal batch u * 2000000) ∧
    (∀ k, ((settleBatch batch accounts keys).2 k).budget_used
        = (keys k).budget_used + keyCostTotal batch k) := by
  have hu : ∀ u, (processBatch batch).userSpends u = userCostTotal batch u := by
    intro u
    rw [processBatch, userCostTotal, foldl_processRecord_userSpends]
    simp [initialAggregates]
  have hk : ∀ k, (processBatch batch).keySpends k = keyCostTotal batch k := by
    intro k
    rw [processBatch, keyCostTotal, foldl_processRecord_keySpends]
    simp [initialAggregates]
  refine ⟨fun u => ?_, fun u => ?_, fun k => ?_⟩ <;>
    simp [settleBatch, updateUserBudgetsBatch, updateVirtualKeyBudgetsBatch, hu, hk]

open SpendLog

/-- The line loop of the first spendLogger variant takes the first usage of a
chunk. -/
theorem firstUsageInLines_eq (ls : List StreamLine) :
    firstUsageInLines ls = (ls.filterMap extractUsageFromStreamChunk).head? := by
  induction ls with
  | nil => simp [firstUsageInLines]
  | cons l ls ih =>
      cases hx : extractUsageFromStreamChunk l <;>
        simp [firstUsageInLines, List.filterMap_cons, hx, ih]

/-- The chunk step of the second spendLogger variant keeps the chunk's last
usage and falls back to the remembered one. -/
theorem spendLoggerV2Step_eq (ls : List StreamLine) (acc : Option Usage) :
    spendLoggerV2Step acc ls =
      orD ((ls.filterMap extractUsageFromStreamChunk).getLast?) acc := by
  induction ls generalizing acc with
  | nil => simp [spendLoggerV2Step, orD]
  | cons l ls ih =>
      unfold spendLoggerV2Step at ih ⊢
      simp only [List.foldl_cons]
      cases hx : extractUsageFromStreamChunk l with
      | none => simp only [hx]; rw [ih]; simp [List.filterMap_cons, hx]
      | some u =>
          simp only [hx]
          rw [ih]
          rcases hlast : (ls.filterMap extractUsageFromStreamChunk).getLast? with _ | v
          · have hnil : ls.filterMap extractUsageFromStreamChunk = [] :=
              List.getLast?_eq_none_iff.mp hlast
            simp [List.filterMap_cons, hx, hnil, orD]
          · have hne : ls.filterMap extractUsageFromStreamChunk ≠ [] := by
              intro hc; rw [hc] at hlast; exact Option.noConfusion hlast
            have hcons : (u :: ls.filterMap extractUsageFromStreamChunk).getLast? =
                (ls.filterMap extractUsageFromStreamChunk).getLast? := by
              have := List.getLast?_append_of_ne_nil [u] hne
              simpa using this
            simp [List.filterMap_cons, hx, hcons, hlast, orD]

/-- Stream-level fold of the second spendLogger variant. -/
theorem spendLoggerV2_foldl (chunks : List (List StreamLine)) (acc : Option Usage) :
    chunks.foldl spendLoggerV2Step acc = orD (usagesSeen chunks).getLast? acc := by
  induction chunks generalizing acc with
  | nil => simp [usagesSeen, orD]
  | cons c cs ih =>
      simp only [List.foldl_cons]
      rw [ih, spendLoggerV2Step_eq]
      have hsplit : usagesSeen (c :: cs) =
          c.filterMap extractUsageFromStreamChunk ++ usagesSeen cs := by
        simp [usagesSeen]
      rcases hlast : (usagesSeen cs).getLast? with _ | v
      · have hnil : usagesSeen cs = [] := List.getLast?_eq_none_iff.mp hlast
        rw [hsplit, hnil, List.append_nil]
        simp [orD]
      · have hne : usagesSeen cs ≠ [] := by
          intro hc; rw [hc] at hlast; exact Option.noConfusion hlast
        rw [hsplit, List.getLast?_append_of_ne_nil _ hne, hlast]
        simp [orD]

/-- Stream-level fold of the first spendLogger variant. -/
theorem spendLoggerV1_foldl (chunks : List (List StreamLine)) (acc : Option Usage) :
    chunks.foldl spendLoggerV1Step acc = orD acc (usagesSeen chunks).head? := by
  induction chunks generalizing acc with
  | nil => cases acc <;> simp [usagesSeen, orD]
  | cons c cs ih =>
      simp only [List.foldl_cons]
      rw [ih]
      cases acc with
      | some u => simp [spendLoggerV1Step, orD]
      | none =>
          have hstep : spendLoggerV1Step none c =
              (c.filterMap extractUsageFromStreamChunk).head? := by
            simp [spendLoggerV1Step, firstUsageInLines_eq]
          rw [hstep]
          have hsplit : usagesSeen (c :: cs) =
              c.filterMap extractUsageFromStreamChunk ++ usagesSeen cs := by
            simp [usagesSeen]
          rw [hsplit, List.head?_append]
          cases hx : (c.filterMap extractUsageFromStreamChunk).head? <;> simp [orD, hx]

/-- C6 counterexample: with two usage-bearing chunks, the first spendLogger
variant records the first usage seen, not the last one, so the recorded usage
differs from the last usage object seen across the data chunks. -/
theorem spendLoggerV1_first_wins_counterexample :
    spendLoggerV1 [[.payload (some ⟨some 1, some 2, none, none⟩)],
        [.payload (some ⟨some 3, some 4, none, none⟩)]]
      = some ⟨some 1, some 2, none, none⟩ ∧
    (usagesSeen [[.payload (some ⟨some 1, some 2, none, none⟩)],
        [.payload (some ⟨some 3, some 4, none, none⟩)]]).getLast?
      = some ⟨some 3, some 4, none, none⟩ ∧
    spendLoggerV1 [[.payload (some ⟨some 1, some 2, none, none⟩)],
        [.payload (some ⟨some 3, some 4, none, none⟩)]]
      ≠ (usagesSeen [[.payload (some ⟨some 1, some 2, none, none⟩)],
        [.payload (some ⟨some 3, some 4, none, none⟩)]]).getLast? := by
  refine ⟨rfl, rfl, ?_⟩
  decide

/-- C6 amended: the second spendLogger variant records the last usage object
seen across all data chunks of the stream while the first variant records the
first one, and in both variants a UsageRecord is emitted at stream end iff at
least one usage object was seen. -/
theorem spendLogger_usage_policy (chunks : List (List StreamLine)) :
    spendLoggerV2 chunks = (usagesSeen chunks).getLast? ∧
    spendLoggerV1 chunks = (usagesSeen chunks).head? ∧
    ((spendLoggerV2 chunks).isSome = true ↔ usagesSeen chunks ≠ []) ∧
    ((spendLoggerV1 chunks).isSome = true ↔ usagesSeen chunks ≠ []) := by
  have h2 : spendLoggerV2 chunks = (usagesSeen chunks).getLast? := by
    rw [spendLoggerV2, spendLoggerV2_foldl]
    cases (usagesSeen chunks).getLast? <;> simp [orD]
  have h1 : spendLoggerV1 chunks = (usagesSeen chunks).head? := by
    rw [spendLoggerV1, spendLoggerV1_foldl]
    simp [orD]
  refine ⟨h2, h1, ?_, ?_⟩
  · rw [h2]; exact List.getLast?_isSome
  · rw [h1]; exact List.head?_isSome

open RateLimiterMiddleware in
/-- C8: the rate limiter middleware runs the sliding-window check exactly
when an authenticated key context is attached and the owning user's tier does
not read ENTERPRISE; when it runs, the limit is the user's rate_limit_rpm if
set, else the configured default RPM. -/
theorem rateLimiter_applied_iff (ctx : Option Admission.VirtualKeyContext)
    (defaultRpm : Nat) :
    (rateLimiterDecision ctx defaultRpm ≠ .skipped ↔
      ∃ c vk, ctx = some c ∧ c.virtualKeyWithUser = some vk ∧
        vk.user.user_tier ≠ some "ENTERPRISE") ∧
    (∀ c vk, ctx = some c → c.virtualKeyWithUser = some vk →
      vk.user.user_tier ≠ some "ENTERPRISE" →
      rateLimiterDecision ctx defaultRpm =
        .checked vk.user.id (vk.user.rate_limit_rpm.getD defaultRpm)) := by
  constructor
  · constructor
    · intro hne
      cases hc : ctx with
      | none => rw [hc] at hne; exact absurd rfl hne
      | some c =>
          cases hvk : c.virtualKeyWithUser with
          | none =>
              rw [hc] at hne
              simp [rateLimiterDecision, hvk] at hne
          | some vk =>
              by_cases ht : vk.user.user_tier = some ENTERPRISE_TIER
              · rw [hc] at hne
                simp [rateLimiterDecision, hvk, ht] at hne
              · exact ⟨c, vk, rfl, hvk, ht⟩
    · rintro ⟨c, vk, rfl, hvk, ht⟩
      simp [rateLimiterDecision, hvk, ENTERPRISE_TIER, ht]
  · rintro c vk rfl hvk ht
    simp [rateLimiterDecision, hvk, ENTERPRISE_TIER, ht]

open RateLimiterMiddleware in
/-- Witness for C8: a non-enterprise user with an explicit 25 rpm limit is
checked with limit 25 under a default of 60. -/
theorem rateLimiter_applied_iff_witness :
    rateLimiterDecision
        (some ⟨some ⟨7, none, 0, ⟨4, none, 0, some 25, some "PRO"⟩⟩,
          "openai", "sk", none, "dep", 5, "m", 0, 0⟩) 60
      = .checked 4 25 :=
  (rateLimiter_applied_iff
      (some ⟨some ⟨7, none, 0, ⟨4, none, 0, some 25, some "PRO"⟩⟩,
        "openai", "sk", none, "dep", 5, "m", 0, 0⟩) 60).2
    ⟨some ⟨7, none, 0, ⟨4, none, 0, some 25, some "PRO"⟩⟩,
      "openai", "sk", none, "dep", 5, "m", 0, 0⟩
    ⟨7, none, 0, ⟨4, none, 0, some 25, some "PRO"⟩⟩ rfl rfl (by decide)

open Bridge

/-- C3: whether a stream is terminated by the DONE sentinel or by EOF without
it, the emitted event sequence ends with the same closing tail computed from
the bridge state at termination: content_block_stop for the open text block,
content_block_stop for every started tool block, then message_delta carrying
the mapped stop_reason and the final usage totals, then message_stop. -/
theorem streamTermination_spec (chunks : List RawChunk) (fallbackId : String) :
    (runChunks (chunks ++ [RawChunk.done]) fallbackId).1 =
      (runChunks chunks fallbackId).1 ++ handleDone (runChunks chunks fallbackId).2 ∧
    runStreamAtEof chunks fallbackId =
      (runChunks chunks fallbackId).1 ++ handleDone (runChunks chunks fallbackId).2 ∧
    ∀ s : StreamState,
      handleDone s =
        (if s.contentBlockStarted then [Event.content_block_stop s.currentContentIndex]
          else [])
          ++ s.toolCallsStarted.map (fun i => Event.content_block_stop i)
          ++ [Event.message_delta (mapFinishReasonStream s.finishReason)
                s.inputTokens s.outputTokens, Event.message_stop] := by
  refine ⟨?_, rfl, fun s => rfl⟩
  simp only [runChunks, List.foldl_append, List.foldl_cons, List.foldl_nil]
  rfl

/-- End-to-end evaluation of the stream bridge on the canonical scenario:
three upstream chunks (He, llo, finish_reason stop) ending at EOF without a
sentinel still produce message_start, the opened text block with its two
deltas, content_block_stop, message_delta with end_turn, message_stop. -/
theorem streamScenario_example :
    runStreamAtEof
        [RawChunk.payload ⟨some "chatcmpl-1", some "openrouter/llama",
            [⟨some ⟨some "He", none⟩, none⟩], none⟩,
          RawChunk.payload ⟨none, none, [⟨some ⟨some "llo", none⟩, none⟩], none⟩,
          RawChunk.payload ⟨none, none, [⟨some ⟨none, none⟩, some "stop"⟩], none⟩]
        "fallback-id"
      = [Event.message_start "chatcmpl-1" "openrouter/llama" 0,
          Event.content_block_start 0 .text,
          Event.content_block_delta 0 (.text_delta "He"),
          Event.content_block_delta 0 (.text_delta "llo"),
          Event.content_block_stop 0,
          Event.message_delta .end_turn 0 0,
          Event.message_stop] := by
  decide

/-- The fixed finish_reason table of the claim agrees with mapFinishReason. -/
theorem mapFinishReason_table (s : String) :
    mapFinishReason s =
      (match s with
       | "stop" => StopReason.end_turn
       | "content_filter" => StopReason.end_turn
       | "length" => StopReason.max_tokens
       | "tool_calls" => StopReason.tool_use
       | "function_call" => StopReason.tool_use
       | _ => StopReason.end_turn) := by
  unfold mapFinishReason
  split <;> split <;> simp_all

/-- C4: a 2xx OpenAI chat response with a non-empty choices array and a usage
object translates to an Anthropic response whose usage copies prompt_tokens
into input_tokens and completion_tokens into output_tokens, and whose
stop_reason follows the fixed mapping: stop and content_filter map to
end_turn, length to max_tokens, tool_calls and function_call to tool_use, and
anything else to end_turn. -/
theorem responseTransform_usage_stop (r : OpenAIChatResponse) (status : Nat)
    (provider : String) (u : OpenAIChatUsage) (choice : OpenAIChatChoice)
    (rest : List OpenAIChatChoice)
    (h1 : 200 ≤ status) (h2 : status < 300)
    (hc : r.choices = choice :: rest) (hu : r.usage = some u) :
    ∃ m : MessagesResponse,
      OpenAIToAnthropicMessagesResponseTransform (.success r) status provider = .ok m ∧
      m.usage.input_tokens = u.prompt_tokens ∧
      m.usage.output_tokens = u.completion_tokens ∧
      m.stop_reason =
        (match choice.finish_reason with
         | "stop" => StopReason.end_turn
         | "content_filter" => StopReason.end_turn
         | "length" => StopReason.max_tokens
         | "tool_calls" => StopReason.tool_use
         | "function_call" => StopReason.tool_use
         | _ => StopReason.end_turn) := by
  have hcond : ¬ (status < 200 ∨ status ≥ 300) := by omega
  simp only [OpenAIToAnthropicMessagesResponseTransform, hc, hu, hcond, if_false]
  exact ⟨_, rfl, by simp, by simp, mapFinishReason_table _⟩

/-- Witness for C4 at a concrete input: a 200 response with usage 10/20 and
finish_reason tool_calls maps to input_tokens 10, output_tokens 20 and
stop_reason tool_use. -/
theorem responseTransform_usage_stop_witness :
    ∃ m : MessagesResponse,
      OpenAIToAnthropicMessagesResponseTransform
          (.success ⟨"chatcmpl-1", "gpt-4",
            [⟨⟨"assistant", none, some [⟨"c1", "function", "get_weather", "{}"⟩]⟩,
              "tool_calls"⟩],
            some ⟨10, 20, none, none⟩⟩) 200 "openai-compatible" = .ok m ∧
      m.usage.input_tokens = 10 ∧
      m.usage.output_tokens = 20 ∧
      m.stop_reason = StopReason.tool_use :=
  responseTransform_usage_stop
    ⟨"chatcmpl-1", "gpt-4",
      [⟨⟨"assistant", none, some [⟨"c1", "function", "get_weather", "{}"⟩]⟩,
        "tool_calls"⟩],
      some ⟨10, 20, none, none⟩⟩ 200 "openai-compatible"
    ⟨10, 20, none, none⟩
    ⟨⟨"assistant", none, some [⟨"c1", "function", "get_weather", "{}"⟩]⟩, "tool_calls"⟩
    [] (by decide) (by decide) rfl rfl

open ConfigCrypto

/-- C9 counterexample: the empty plaintext encrypts to 12 IV bytes plus 16
tag bytes and no ciphertext, 28 bytes in total, which decryptConfig rejects
as too short (its minimum is 29), so the round trip fails on the empty
string. -/
theorem decryptConfig_empty_counterexample :
    decryptConfig idGcm byteCodec [] (encryptConfig idGcm byteCodec []
        (List.replicate IV_LENGTH 0) [])
      = .error "Invalid encrypted data: too short" := by
  decide

/-- C9 amended: for every plaintext whose byte encoding is non-empty and
every 12-byte IV, decryptConfig recovers exactly what encryptConfig
produced -- for any authenticated cipher and any base64 codec satisfying the
library contracts.  The empty plaintext is rejected as too short instead. -/
theorem decryptConfig_encryptConfig (C : AesGcm) (B : Base64Codec)
    (key iv pt : Bytes) (hiv : iv.length = IV_LENGTH) (hpt : pt ≠ []) :
    decryptConfig C B key (encryptConfig C B key iv pt) = .ok pt := by
  have hptlen : 1 ≤ pt.length := List.length_pos.mpr hpt
  have hlen : (iv ++ C.authTag key iv pt ++ C.enc key iv pt).length =
      IV_LENGTH + TAG_LENGTH + pt.length := by
    simp [hiv, C.tag_length, C.enc_length]
    omega
  have hne : (iv ++ C.authTag key iv pt ++ C.enc key iv pt) ≠ [] := by
    intro hc
    have := congrArg List.length hc
    rw [hlen] at this
    simp [IV_LENGTH, TAG_LENGTH] at this
  have hsne : ¬ (encryptConfig C B key iv pt = "") := B.encode_ne _ hne
  have hdata : B.decode (encryptConfig C B key iv pt) =
      iv ++ C.authTag key iv pt ++ C.enc key iv pt := B.decode_encode _
  have hivtag : (iv ++ C.authTag key iv pt).length = IV_LENGTH + TAG_LENGTH := by
    simp [hiv, C.tag_length]
  have htake : (iv ++ C.authTag key iv pt ++ C.enc key iv pt).take IV_LENGTH = iv := by
    rw [List.append_assoc]
    exact List.take_left' hiv
  have hdroptake : ((iv ++ C.authTag key iv pt ++ C.enc key iv pt).drop
      IV_LENGTH).take TAG_LENGTH = C.authTag key iv pt := by
    rw [List.append_assoc, List.drop_left' hiv]
    exact List.take_left' (C.tag_length key iv pt)
  have hdrop : (iv ++ C.authTag key iv pt ++ C.enc key iv pt).drop
      (IV_LENGTH + TAG_LENGTH) = C.enc key iv pt :=
    List.drop_left' hivtag
  have hnotshort : ¬ ((iv ++ C.authTag key iv pt ++ C.enc key iv pt).length <
      IV_LENGTH + TAG_LENGTH + 1) := by
    rw [hlen]; omega
  unfold decryptConfig
  rw [if_neg hsne]
  simp only [hdata, htake, hdroptake, hdrop]
  rw [if_neg hnotshort, if_pos (C.check_genuine key iv pt), C.dec_enc]

/-- Witness for C9 amended at a concrete input: a one-byte plaintext under a
zero IV round-trips through the concrete cipher and codec instances. -/
theorem decryptConfig_encryptConfig_witness :
    decryptConfig idGcm byteCodec [] (encryptConfig idGcm byteCodec []
        (List.replicate IV_LENGTH 0) [65])
      = .ok [65] :=
  decryptConfig_encryptConfig idGcm byteCodec [] (List.replicate IV_LENGTH 0) [65]
    (List.length_replicate _ _) (by simp)

end Gateway
